import Mathlib

/-!
Verification development for the MCP_Adapter ingestion and classification
pipeline. The Lean definitions below are a shallow embedding of the Python
sources in src/mcp_adapter (discover.py, ingest.py, models.py).

Modelling conventions:
- Python dicts are association lists (insertion ordered, unique keys are not
  enforced by the type but lookups take the first match, as CPython does for
  the dicts that actually arise, where keys are unique).
- Python runtime errors (TypeError, AttributeError, ValueError, pydantic
  validation errors, RecursionError) are modelled as Option.none; fallible
  functions return Option.
- Python str.lower / str.upper are modelled as character maps over the ASCII
  case table, matching CPython on the ASCII fragment that the rule tables
  and the claims exercise.
- JSON numbers are modelled as integers; no claim involves fractional
  document values. Confidence scores in the classifier are rationals.
- A handful of exotic CPython corners (for example dict("") = {}, or pydantic
  lax scalar coercions such as bool from the string "true") are modelled as
  errors; no claim depends on them, and comments mark each spot.
-/

-- ── Python string primitives ────────────────────────────────────────────────

/-- Model of CPython str.lower restricted to ASCII (Char.toLower maps only
the range A-Z). -/
def pyLower (s : String) : String := String.mk (s.data.map Char.toLower)

/-- Model of CPython str.upper restricted to ASCII. -/
def pyUpper (s : String) : String := String.mk (s.data.map Char.toUpper)

/-- Model of the Python substring test `needle in hay` on lists of
characters. -/
def substr (needle : List Char) : List Char → Bool
  | [] => needle.isEmpty
  | c :: t => needle.isPrefixOf (c :: t) || substr needle t

/-- Model of the Python substring test `needle in hay` on strings. -/
def strIn (needle hay : String) : Bool := substr needle.data hay.data

/-- Wrap a string in ASCII single quotes, as the f-strings of discover.py do
with the matched keyword. -/
def squo (s : String) : String := String.mk ('\x27' :: (s.data ++ ['\x27']))

-- ── discover.py : the rule tables (CLASSIFICATION_RULES) ────────────────────

/-- CLASSIFICATION_RULES safe_methods. -/
def methodsSafe : List String := ["GET", "HEAD", "OPTIONS"]

/-- CLASSIFICATION_RULES list of always-destructive methods. -/
def methodsDestructive : List String := ["DELETE"]

/-- CLASSIFICATION_RULES safe_keywords. -/
def keywordsSafe : List String :=
  ["list", "get", "read", "fetch", "describe", "show", "view",
   "search", "find", "query", "lookup", "check", "validate"]

/-- CLASSIFICATION_RULES list of destructive keywords. -/
def keywordsDestructive : List String :=
  ["delete", "destroy", "remove", "terminate", "purge", "drop",
   "revoke", "cancel", "disable", "deactivate", "kill"]

/-- CLASSIFICATION_RULES billing_keywords. -/
def keywordsBilling : List String :=
  ["billing", "payment", "invoice", "charge", "subscription",
   "credit", "cost", "price", "purchase", "order"]

/-- CLASSIFICATION_RULES auth_keywords. -/
def keywordsAuth : List String :=
  ["token", "secret", "password", "credential", "key", "auth",
   "login", "logout", "session"]

-- ── discover.py : apply_rules ───────────────────────────────────────────────

/-- Policy literal type of discover.py (PolicyType). -/
inductive Policy where
  | conservative
  | moderate
  | permissive
deriving DecidableEq, BEq

/-- Tri-state exposure value: Python True, False, or the string "review". -/
inductive Expose where
  | yes
  | no
  | review
deriving DecidableEq, BEq

/-- Result dict of apply_rules: classification, expose, reason, confidence. -/
structure RuleResult where
  classification : String
  expose : Expose
  reason : String
  confidence : ℚ
deriving DecidableEq

/-- Capability descriptor as read by apply_rules: the four fields it accesses
via tool.get(k, ""). A missing key and an empty string are indistinguishable
to apply_rules, so both are the default "". -/
structure Tool where
  name : String := ""
  method : String := ""
  description : String := ""
  path : String := ""
deriving DecidableEq

/-- Shallow embedding of discover.apply_rules (discover.py lines 73-186).
Each keyword loop is a first-match search over the rule table, in table
order, exactly as the Python for loops are. -/
def apply_rules (tool : Tool) (policy : Policy) : RuleResult :=
  let name := pyLower tool.name
  let method := pyUpper tool.method
  let description := pyLower tool.description
  let path := pyLower tool.path
  let combined_text := name ++ " " ++ description ++ " " ++ path
  match keywordsDestructive.find? (fun kw => strIn kw combined_text) with
  | some kw =>
      ⟨"unsafe", Expose.no, "Contains destructive keyword: " ++ squo kw, 0.9⟩
  | none =>
  match keywordsBilling.find? (fun kw => strIn kw combined_text) with
  | some kw =>
      ⟨"unsafe", Expose.no, "Billing/payment operation: " ++ squo kw, 0.85⟩
  | none =>
  match keywordsAuth.find? (fun kw => strIn kw name || strIn kw path) with
  | some kw =>
      ⟨"unsafe", Expose.no, "Authentication/security operation: " ++ squo kw, 0.8⟩
  | none =>
  if methodsSafe.contains method then
    match keywordsSafe.find? (fun kw => strIn kw combined_text) with
    | some kw =>
        ⟨"safe", Expose.yes,
         "Read-only " ++ method ++ " operation with safe keyword: " ++ squo kw, 0.95⟩
    | none =>
        ⟨"safe", Expose.yes, "Read-only " ++ method ++ " operation", 0.8⟩
  else if methodsDestructive.contains method then
    ⟨"unsafe", Expose.no, "Destructive " ++ method ++ " operation", 0.95⟩
  else if (["POST", "PUT", "PATCH"] : List String).contains method then
    match policy with
    | Policy.conservative =>
        ⟨"conditional", Expose.no,
         "Write operation (" ++ method ++ ") blocked by conservative policy", 0.7⟩
    | Policy.moderate =>
        match keywordsSafe.find? (fun kw => strIn kw combined_text) with
        | some kw =>
            ⟨"conditional", Expose.yes,
             "Write operation with safe context: " ++ squo kw, 0.6⟩
        | none =>
            if strIn "create" combined_text || strIn "update" combined_text then
              ⟨"conditional", Expose.yes, "Standard create/update operation", 0.65⟩
            else
              ⟨"conditional", Expose.review,
               "Write operation (" ++ method ++ ") needs manual review", 0.5⟩
    | Policy.permissive =>
        ⟨"conditional", Expose.yes,
         "Write operation (" ++ method ++ ") allowed by permissive policy", 0.6⟩
  else
    ⟨"unknown", Expose.review, "Unable to classify automatically", 0.3⟩

-- ── discover.py : classify_tools (rule-based, in-memory path) ───────────────

/-- Summary block of classify_tools. -/
structure Summary where
  total : Nat
  exposable : Nat
  blocked : Nat
  needs_review : Nat
deriving DecidableEq

/-- Per-tool record appended by classify_tools: the apply_rules result dict
with the key "name" added. -/
structure ClassRecord where
  classification : String
  expose : Expose
  reason : String
  confidence : ℚ
  name : String
deriving DecidableEq

/-- Return value of classify_tools. The policy field is an Option because the
early return for an empty tool list omits the "policy" key. -/
structure ClassifyResult where
  policy : Option Policy
  summary : Summary
  classifications : List ClassRecord
deriving DecidableEq

/-- One loop iteration of classify_tools: apply_rules plus the name field
(taken from tool.get("name", "")). -/
def recordOf (policy : Policy) (tool : Tool) : ClassRecord :=
  let r := apply_rules tool policy
  ⟨r.classification, r.expose, r.reason, r.confidence, tool.name⟩

/-- Shallow embedding of discover.classify_tools (discover.py lines 373-416)
on its rule-based path (use_gemini = use_reasoning = False); the generative
branches are external strategies outside this core. -/
def classify_tools (tools : List Tool) (policy : Policy) : ClassifyResult :=
  if tools.isEmpty then
    ⟨none, ⟨0, 0, 0, 0⟩, []⟩
  else
    let classifications := tools.map (recordOf policy)
    let exposable := classifications.countP (fun c => c.expose == Expose.yes)
    let blocked := classifications.countP (fun c => c.expose == Expose.no)
    let review := classifications.countP (fun c => c.expose == Expose.review)
    ⟨some policy, ⟨tools.length, exposable, blocked, review⟩, classifications⟩

-- ── Concrete inputs used by counterexamples and witnesses ───────────────────

/-- Capability from the claim C1 test vector. -/
def toolDeleteUser : Tool := ⟨"deleteUser", "DELETE", "", ""⟩

/-- Capability from the claim C2 test vector. -/
def toolCreateOrder : Tool := ⟨"createOrder", "POST", "Place a new order", ""⟩

-- ── JSON document model ─────────────────────────────────────────────────────

/-- Parsed JSON/YAML document values, as produced by json.loads or
yaml.safe_load. Mappings are insertion-ordered association lists. -/
inductive Json where
  | null
  | bool (b : Bool)
  | num (n : Int)
  | str (s : String)
  | arr (elems : List Json)
  | obj (entries : List (String × Json))

/-- A Python dict with string keys. -/
abbrev JObj := List (String × Json)

/-- First-match key lookup in a mapping. -/
def jlookup (kvs : JObj) (k : String) : Option Json :=
  (kvs.find? (fun kv => kv.1 == k)).map (fun kv => kv.2)

/-- Python key-membership test `k in kvs` for mappings. -/
def hasKey (kvs : JObj) (k : String) : Bool := (jlookup kvs k).isSome

/-- Python dict assignment d[k] = v: replace in place when the key exists,
append otherwise. -/
def jinsert (kvs : JObj) (k : String) (v : Json) : JObj :=
  if hasKey kvs k then
    kvs.map (fun kv => if kv.1 == k then (k, v) else kv)
  else
    kvs ++ [(k, v)]

/-- Python dict.update(other): assign every entry of other, in order. -/
def jupdate (kvs other : JObj) : JObj :=
  other.foldl (fun acc kv => jinsert acc kv.1 kv.2) kvs

/-- Python truthiness of a JSON value. -/
def pyTruthy : Json → Bool
  | Json.null => false
  | Json.bool b => b
  | Json.num n => n != 0
  | Json.str s => !s.data.isEmpty
  | Json.arr l => !l.isEmpty
  | Json.obj l => !l.isEmpty

/-- Python membership test `needle in value` for a string needle: mappings
test key presence, strings test substring, lists test element equality, and
other types raise TypeError (modelled as none). -/
def pyContains (needle : String) : Json → Option Bool
  | Json.obj kvs => some (hasKey kvs needle)
  | Json.str s => some (strIn needle s)
  | Json.arr l =>
      some (l.any (fun x => match x with | Json.str s => s == needle | _ => false))
  | _ => none

/-- Python node.get(k, dflt): node must be a mapping, otherwise
AttributeError (none). -/
def pyGetD (node : Json) (k : String) (dflt : Json) : Option Json :=
  match node with
  | Json.obj kvs => some ((jlookup kvs k).getD dflt)
  | _ => none

/-- Lookup of a string field with a default for a missing key; a present
non-string value is an error for the pydantic string fields it feeds. -/
def getStrD (kvs : JObj) (k : String) (dflt : String) : Option String :=
  match jlookup kvs k with
  | none => some dflt
  | some (Json.str s) => some s
  | some _ => none

/-- Lookup of a mapping field defaulting to an empty mapping. -/
def getObjD (kvs : JObj) (k : String) : Option JObj :=
  match jlookup kvs k with
  | none => some []
  | some (Json.obj o) => some o
  | some _ => none

/-- Lookup of a list field defaulting to an empty list. -/
def getArrD (kvs : JObj) (k : String) : Option (List Json) :=
  match jlookup kvs k with
  | none => some []
  | some (Json.arr l) => some l
  | some _ => none

/-- Lookup of a boolean field with a default for a missing key. -/
def getBoolD (kvs : JObj) (k : String) (dflt : Bool) : Option Bool :=
  match jlookup kvs k with
  | none => some dflt
  | some (Json.bool b) => some b
  | some _ => none

/-- A list whose elements must all be strings (pydantic list[str]). -/
def asStrList (l : List Json) : Option (List String) :=
  l.mapM (fun x => match x with | Json.str s => some s | _ => none)

-- ── ingest.py : _resolve_ref and _flatten_schema ────────────────────────────

/-- Python "a/b/c".split on the slash character. -/
def splitOnSlash : List Char → List String
  | [] => [""]
  | c :: t =>
    if c == '/' then "" :: splitOnSlash t
    else
      match splitOnSlash t with
      | [] => [String.mk [c]]
      | s :: rest => String.mk (c :: s.data) :: rest

/-- Reference path segments: ref.lstrip of the characters # and /, then
split on /. -/
def refParts (ref : String) : List String :=
  splitOnSlash (ref.data.dropWhile (fun c => c == '#' || c == '/'))

/-- Walk of ingest._resolve_ref over already-split path segments: successive
node.get(p, {}) lookups. -/
def resolveParts : Json → List String → Option Json
  | node, [] => some node
  | node, p :: ps => do
      let next ← pyGetD node p (Json.obj [])
      resolveParts next ps

/-- Shallow embedding of ingest._resolve_ref (ingest.py lines 148-154). -/
def resolve_ref (spec : Json) (ref : String) : Option Json :=
  resolveParts spec (refParts ref)

/-- Strict existence of a reference path in a document: every segment is a
present key of a mapping node. -/
def pathExists : Json → List String → Bool
  | _, [] => true
  | Json.obj kvs, p :: ps =>
      (match jlookup kvs p with
       | some v => pathExists v ps
       | none => false)
  | _, _ :: _ => false

/-- Shallow embedding of ingest._flatten_schema (ingest.py lines 157-177)
with explicit fuel: the Python function recurses unboundedly on cyclic
references (a documented latent defect), and fuel exhaustion models the
resulting RecursionError as none. Non-mapping fragments in positions where
Python would raise are none as well. -/
def flatten : Nat → Json → Json → Option Json
  | 0, _, _ => none
  | Nat.succ fuel, spec, schema => do
      let schema1 ← match schema with
        | Json.obj kvs =>
            if hasKey kvs "$ref" then
              match jlookup kvs "$ref" with
              | some (Json.str r) => resolve_ref spec r
              | _ => none
            else some schema
        | _ => none
      let result0 ← match schema1 with
        | Json.obj kvs => some kvs
        | _ => none
      let result1 ← if hasKey result0 "properties" then
          match jlookup result0 "properties" with
          | some (Json.obj props) => do
              let props2 ← props.mapM (fun kv => do
                let v ← flatten fuel spec kv.2
                pure (kv.1, v))
              pure (jinsert result0 "properties" (Json.obj props2))
          | _ => none
        else pure result0
      let result2 ← if hasKey result1 "items" then
          match jlookup result1 "items" with
          | some itemsVal => do
              let v ← flatten fuel spec itemsVal
              pure (jinsert result1 "items" v)
          | none => none
        else pure result1
      let result3 ← if hasKey result2 "allOf" then
          match jlookup result2 "allOf" with
          | some (Json.arr subs) =>
              subs.foldlM (fun acc sub => do
                let subF ← flatten fuel spec sub
                match subF with
                | Json.obj subKvs =>
                    let acc1 := jupdate acc subKvs
                    if hasKey subKvs "properties" then
                      match jlookup subKvs "properties" with
                      | some (Json.obj subProps) =>
                          (match (jlookup acc1 "properties").getD (Json.obj []) with
                           | Json.obj curKvs =>
                               pure (jinsert acc1 "properties"
                                 (Json.obj (jupdate curKvs subProps)))
                           | _ => none)
                      | _ => none
                    else pure acc1
                | _ => none) []
          | _ => none
        else pure result2
      pure (Json.obj result3)

-- ── Concrete documents for the resolver and flattener claims ────────────────

/-- Document with a components mapping but no schemas below it, so the Pet
reference path does not exist while every visited node is a mapping. -/
def docC7 : Json := Json.obj [("components", Json.obj [])]

/-- Schema with allOf of two sub-schemas that declare disjoint properties:
the claim expects the merge to retain both. -/
def schemaC3 : Json :=
  Json.obj [("allOf", Json.arr
    [Json.obj [("properties", Json.obj
       [("a", Json.obj [("type", Json.str "string")])])],
     Json.obj [("properties", Json.obj
       [("b", Json.obj [("type", Json.str "integer")])])]])]

-- ── models.py : canonical entities ──────────────────────────────────────────

/-- HttpMethod enum of models.py. -/
inductive HttpMethod where
  | GET
  | POST
  | PUT
  | PATCH
  | DELETE
  | HEAD
  | OPTIONS
deriving DecidableEq, BEq

/-- Constructor call HttpMethod(s): ValueError (none) on a non-member. -/
def parseHttpMethod : String → Option HttpMethod
  | "GET" => some HttpMethod.GET
  | "POST" => some HttpMethod.POST
  | "PUT" => some HttpMethod.PUT
  | "PATCH" => some HttpMethod.PATCH
  | "DELETE" => some HttpMethod.DELETE
  | "HEAD" => some HttpMethod.HEAD
  | "OPTIONS" => some HttpMethod.OPTIONS
  | _ => none

/-- ParamLocation enum of models.py. -/
inductive ParamLocation where
  | query
  | path
  | header
  | cookie
  | body
  | formData
deriving DecidableEq, BEq

/-- Constructor call ParamLocation(s): ValueError (none) on a non-member. -/
def parseParamLocation : String → Option ParamLocation
  | "query" => some ParamLocation.query
  | "path" => some ParamLocation.path
  | "header" => some ParamLocation.header
  | "cookie" => some ParamLocation.cookie
  | "body" => some ParamLocation.body
  | "formData" => some ParamLocation.formData
  | _ => none

/-- ParamSchema model. The field exampleVal embeds the source field named
example, which is a reserved word in Lean. -/
structure ParamSchema where
  name : String
  location : ParamLocation
  description : String
  required : Bool
  schema_type : String
  enum : Option (List String)
  default : Json
  exampleVal : Json

/-- ResponseSchema model. -/
structure ResponseSchema where
  status_code : Int
  description : String
  content_type : String
  schema_fields : JObj

/-- AuthScheme model. -/
structure AuthScheme where
  name : String
  scheme_type : String
  location : String
  header_name : String
  flows : JObj

/-- Endpoint model. -/
structure Endpoint where
  method : HttpMethod
  path : String
  operation_id : String
  summary : String
  description : String
  tags : List String
  parameters : List ParamSchema
  request_body_schema : JObj
  responses : List ResponseSchema
  auth_schemes : List String
  deprecated : Bool

/-- APISpec model. -/
structure APISpec where
  title : String
  version : String
  description : String
  base_url : String
  auth_schemes : List AuthScheme
  endpoints : List Endpoint
  tags : List String
  raw_meta : JObj

-- ── Python sorted(set(..)) over strings ─────────────────────────────────────

/-- Lexicographic comparison of character lists by code point, the CPython
string order. -/
def lexLe : List Char → List Char → Bool
  | [], _ => true
  | _ :: _, [] => false
  | a :: as, b :: bs =>
      if a.toNat < b.toNat then true
      else if b.toNat < a.toNat then false
      else lexLe as bs

/-- CPython string comparison a <= b. -/
def strLe (a b : String) : Bool := lexLe a.data b.data

/-- Insertion into an ascending list. -/
def insertSorted (x : String) : List String → List String
  | [] => [x]
  | y :: ys => if strLe x y then x :: y :: ys else y :: insertSorted x ys

/-- Insertion sort, ascending in the CPython string order. -/
def sortStrings : List String → List String
  | [] => []
  | x :: xs => insertSorted x (sortStrings xs)

/-- Deduplication (keeping the last occurrence; irrelevant after sorting). -/
def dedupStr : List String → List String
  | [] => []
  | x :: xs => if xs.contains x then dedupStr xs else x :: dedupStr xs

/-- Python sorted(set(l)) for strings: the unique ascending enumeration of
the member set of l. -/
def pySortedSet (l : List String) : List String := sortStrings (dedupStr l)

/-- Tag lists of all endpoints, concatenated in order. -/
def allEndpointTags (eps : List Endpoint) : List String :=
  eps.foldr (fun e acc => e.tags ++ acc) []

-- ── ingest.py : OpenAPI/Swagger normalizer helpers ──────────────────────────

/-- Lookup modelling Python dict.get(k) with default None. -/
def getJ (kvs : JObj) (k : String) : Json := (jlookup kvs k).getD Json.null

/-- Python `a or b`. -/
def pyOrJ (a b : Json) : Json := if pyTruthy a then a else b

/-- Python int(s) for a string: optional sign and decimal digits after
stripping spaces, ValueError (none) otherwise. -/
def digitsToNat (cs : List Char) : Nat :=
  cs.foldl (fun a c => a * 10 + (c.toNat - 48)) 0

/-- Decimal digit test. -/
def allDigits (cs : List Char) : Bool :=
  cs.all (fun c => 48 ≤ c.toNat && c.toNat ≤ 57)

/-- Python int(s). -/
def pyInt (s : String) : Option Int :=
  let t := ((s.data.dropWhile (fun c => c == ' ')).reverse.dropWhile
    (fun c => c == ' ')).reverse
  match t with
  | [] => none
  | '-' :: ds =>
      if !ds.isEmpty && allDigits ds then some (-(Int.ofNat (digitsToNat ds))) else none
  | '+' :: ds =>
      if !ds.isEmpty && allDigits ds then some (Int.ofNat (digitsToNat ds)) else none
  | ds => if allDigits ds then some (Int.ofNat (digitsToNat ds)) else none

/-- Pydantic field of type list[str] | None from schema.get("enum"). -/
def getEnumField (kvs : JObj) (k : String) : Option (Option (List String)) :=
  match jlookup kvs k with
  | none => some none
  | some Json.null => some none
  | some (Json.arr l) => (asStrList l).map some
  | some _ => none

/-- Resolution step shared by several helpers: when the fragment carries a
$ref key, replace it by the referenced node, which must be a mapping for the
subsequent attribute accesses. -/
def derefObj (spec : Json) (kvs : JObj) : Option JObj :=
  if hasKey kvs "$ref" then
    match jlookup kvs "$ref" with
    | some (Json.str r) =>
        (match resolve_ref spec r with
         | some (Json.obj rkvs) => some rkvs
         | _ => none)
    | _ => none
  else some kvs

/-- Shallow embedding of ingest._parse_openapi_params (lines 183-205). -/
def parse_openapi_params (spec : Json) (raw_params : List Json) :
    Option (List ParamSchema) :=
  raw_params.mapM (fun pj => do
    let p ← match pj with
      | Json.obj kvs => derefObj spec kvs
      | _ => none
    let schemaKvs ← match jlookup p "schema" with
      | none => some ([] : JObj)
      | some (Json.obj s) => derefObj spec s
      | some _ => none
    let nm ← getStrD p "name" ""
    let locStr ← match jlookup p "in" with
      | none => some "query"
      | some (Json.str s) => some s
      | some _ => none
    let loc ← parseParamLocation locStr
    let desc ← getStrD p "description" ""
    let req ← getBoolD p "required" false
    let st ← getStrD schemaKvs "type" "string"
    let en ← getEnumField schemaKvs "enum"
    let df := getJ schemaKvs "default"
    let ex := pyOrJ (getJ p "example") (getJ schemaKvs "example")
    pure (⟨nm, loc, desc, req, st, en, df, ex⟩ : ParamSchema))

/-- Shallow embedding of ingest._parse_openapi_request_body (lines 208-237):
returns the flattened schema mapping and one body parameter per top-level
property. -/
def parse_openapi_request_body (fuel : Nat) (spec : Json) (body : Json) :
    Option (JObj × List ParamSchema) := do
  if !pyTruthy body then
    pure ([], [])
  else do
    let bodyKvs ← match body with
      | Json.obj kvs => derefObj spec kvs
      | _ => none
    let content ← getObjD bodyKvs "content"
    let json_content ← getObjD content "application/json"
    let schemaJ := (jlookup json_content "schema").getD (Json.obj [])
    let schemaF ← flatten fuel spec schemaJ
    let schemaKvs ← match schemaF with
      | Json.obj kvs => some kvs
      | _ => none
    let requiredList ← getArrD schemaKvs "required"
    let props ← getObjD schemaKvs "properties"
    let params ← props.mapM (fun kv => do
      let propF ← flatten fuel spec kv.2
      let prop ← match propF with
        | Json.obj p => some p
        | _ => none
      let desc ← getStrD prop "description" ""
      let req := requiredList.any
        (fun x => match x with | Json.str s => s == kv.1 | _ => false)
      let st ← getStrD prop "type" "string"
      let en ← getEnumField prop "enum"
      let df := getJ prop "default"
      let ex := getJ prop "example"
      pure (⟨kv.1, ParamLocation.body, desc, req, st, en, df, ex⟩ : ParamSchema))
    pure (schemaKvs, params)

/-- Shallow embedding of ingest._parse_openapi_responses (lines 240-267):
one descriptor per declared status code, first declared content type
(default application/json), non-numeric status coerced to 0. -/
def parse_openapi_responses (fuel : Nat) (spec : Json) (raw : JObj) :
    Option (List ResponseSchema) :=
  raw.mapM (fun kv => do
    let resp ← match kv.2 with
      | Json.obj r => derefObj spec r
      | _ => none
    let content ← getObjD resp "content"
    let ctAndSchema ← match content with
      | [] => some ("application/json", ([] : JObj))
      | (k0, v0) :: _ => do
          let v0kvs ← match v0 with
            | Json.obj o => some o
            | _ => none
          let schemaJ := (jlookup v0kvs "schema").getD (Json.obj [])
          let sf ← flatten fuel spec schemaJ
          match sf with
          | Json.obj sfk => some (k0, sfk)
          | _ => none
    let status := (pyInt kv.1).getD 0
    let desc ← getStrD resp "description" ""
    pure (⟨status, desc, ctAndSchema.1, ctAndSchema.2⟩ : ResponseSchema))

/-- Shallow embedding of ingest._extract_auth_schemes (lines 270-287). -/
def extract_auth_schemes (raw : JObj) : Option (List AuthScheme) := do
  let comps ← getObjD raw "components"
  let v1 := (jlookup comps "securitySchemes").getD (Json.obj [])
  let defsJ := if pyTruthy v1 then v1
    else (jlookup raw "securityDefinitions").getD (Json.obj [])
  let defs ← match defsJ with
    | Json.obj d => some d
    | _ => none
  defs.mapM (fun kv => do
    let d ← match kv.2 with
      | Json.obj dd => some dd
      | _ => none
    let st ← getStrD d "type" ""
    let loc ← getStrD d "in" ""
    let hn ← getStrD d "name" ""
    let fl ← getObjD d "flows"
    pure (⟨kv.1, st, loc, hn, fl⟩ : AuthScheme))

/-- List comprehension [name for sec in security for name in sec.keys()]:
every entry must be a mapping. -/
def secNames (secList : List Json) : Option (List String) := do
  let keyLists ← secList.mapM (fun sec => match sec with
    | Json.obj kvs => some (kvs.map Prod.fst)
    | _ => none)
  pure (keyLists.foldr (fun a b => a ++ b) [])

/-- The seven recognized method keys iterated by parse_openapi (line 327). -/
def methodNames : List String :=
  ["get", "post", "put", "patch", "delete", "head", "options"]

/-- Base URL computation of parse_openapi (lines 303-309): first server URL,
else scheme://host basePath from the legacy Swagger fields. -/
def computeBaseUrl (raw : JObj) : Option String := do
  let serversJ := (jlookup raw "servers").getD (Json.arr [])
  if pyTruthy serversJ then
    match serversJ with
    | Json.arr (Json.obj s0 :: _) => getStrD s0 "url" ""
    | _ => none
  else if hasKey raw "host" then do
    let schemesJ := (jlookup raw "schemes").getD Json.null
    let chosen := if pyTruthy schemesJ then schemesJ else Json.arr [Json.str "https"]
    let scheme ← match chosen with
      | Json.arr (Json.str s :: _) => some s
      | Json.str s =>
          (match s.data with
           | c :: _ => some (String.mk [c])
           | [] => none)
      | _ => none
    let host ← match jlookup raw "host" with
      | some (Json.str h) => some h
      | _ => none
    let bp ← getStrD raw "basePath" ""
    pure (scheme ++ "://" ++ host ++ bp)
  else
    pure ""

/-- One iteration of the inner method loop of parse_openapi (lines 331-364):
build the Endpoint for one operation mapping. -/
def endpointFromOperation (fuel : Nat) (spec : Json) (global_security : List Json)
    (pathStr mname : String) (shared : List Json) (op : JObj) : Option Endpoint := do
  let opParams ← getArrD op "parameters"
  let params ← parse_openapi_params spec (shared ++ opParams)
  let bodyRes ← parse_openapi_request_body fuel spec ((jlookup op "requestBody").getD Json.null)
  let respKvs ← getObjD op "responses"
  let responses ← parse_openapi_responses fuel spec respKvs
  let tags ← match jlookup op "tags" with
    | none => some []
    | some (Json.arr l) => asStrList l
    | some _ => none
  let opSecurity ← match jlookup op "security" with
    | none => some global_security
    | some (Json.arr l) => some l
    | some _ => none
  let op_auth ← secNames opSecurity
  let m ← parseHttpMethod (pyUpper mname)
  let oid ← getStrD op "operationId" ""
  let summ ← getStrD op "summary" ""
  let desc ← getStrD op "description" ""
  let depr ← getBoolD op "deprecated" false
  pure ⟨m, pathStr, oid, summ, desc, tags, params ++ bodyRes.2, bodyRes.1,
        responses, op_auth, depr⟩

/-- The per-path-item part of the endpoint loop of parse_openapi (lines
326-364): shared path-level parameters, then the seven recognized method
keys in order; a missing or falsy operation is skipped. -/
def endpointsForPathItem (fuel : Nat) (spec : Json) (global_security : List Json)
    (pathStr : String) (item : JObj) : Option (List Endpoint) := do
  let shared ← getArrD item "parameters"
  methodNames.foldlM (fun acc mname =>
    match jlookup item mname with
    | none => pure acc
    | some opJ =>
        if !pyTruthy opJ then pure acc
        else match opJ with
          | Json.obj op => do
              let ep ← endpointFromOperation fuel spec global_security pathStr mname shared op
              pure (acc ++ [ep])
          | _ => none) []

/-- Intermediate record for parse_openapi before tag aggregation. -/
structure OpenapiParts where
  title : String
  version : String
  description : String
  base_url : String
  auth_schemes : List AuthScheme
  endpoints : List Endpoint
  raw_meta : JObj

/-- Shallow embedding of ingest.parse_openapi (lines 290-375), everything
except the final APISpec assembly. Non-mapping path items are skipped, as by
the isinstance check. -/
def parse_openapi_core (fuel : Nat) (rawJ : Json) : Option OpenapiParts := do
  let raw ← match rawJ with
    | Json.obj kvs => some kvs
    | _ => none
  let info ← getObjD raw "info"
  let title ← getStrD info "title" "Untitled API"
  let version ← getStrD info "version" ""
  let descr ← getStrD info "description" ""
  let base_url ← computeBaseUrl raw
  let auth_schemes ← extract_auth_schemes raw
  let global_security ← getArrD raw "security"
  let _ ← secNames global_security
  let paths ← getObjD raw "paths"
  let endpoints ← paths.foldlM (fun acc kv =>
    match kv.2 with
    | Json.obj item => do
        let eps ← endpointsForPathItem fuel rawJ global_security kv.1 item
        pure (acc ++ eps)
    | _ => pure acc) []
  let meta : JObj :=
    [("openapi", (jlookup raw "openapi").getD ((jlookup raw "swagger").getD (Json.str "")))]
  pure ⟨title, version, descr, base_url, auth_schemes, endpoints, meta⟩

/-- Shallow embedding of ingest.parse_openapi: spec-level tags are
sorted(all_tags) where all_tags is the set union of the tag lists of the
produced endpoints. -/
def parse_openapi (fuel : Nat) (rawJ : Json) : Option APISpec :=
  (parse_openapi_core fuel rawJ).map (fun p =>
    ⟨p.title, p.version, p.description, p.base_url, p.auth_schemes, p.endpoints,
     pySortedSet (allEndpointTags p.endpoints), p.raw_meta⟩)

-- ── Model of json.loads (used for raw Postman bodies) ───────────────────────

/-- Whitespace skipping for the JSON reader. -/
def skipWs (cs : List Char) : List Char :=
  cs.dropWhile (fun c => c == ' ' || c == '\n' || c == '\t' || c == '\r')

/-- String body reader: characters up to the closing quote, with minimal
escape handling (backslash passes the escaped character through, with n and
t mapped; the exotic escapes are not exercised by any claim). -/
def readStrChars : List Char → Option (List Char × List Char)
  | [] => none
  | '"' :: r => some ([], r)
  | '\\' :: c :: r =>
      (readStrChars r).map (fun p =>
        ((if c == 'n' then '\n' else if c == 't' then '\t' else c) :: p.1, p.2))
  | c :: r => (readStrChars r).map (fun p => (c :: p.1, p.2))

/-- Integer literal reader; fractional and exponent forms are not modelled
(no claim involves them). -/
def readNum (cs : List Char) : Option (Int × List Char) :=
  let (neg, cs1) := match cs with
    | '-' :: r => (true, r)
    | _ => (false, cs)
  let ds := cs1.takeWhile (fun c => 48 ≤ c.toNat && c.toNat ≤ 57)
  let rest := cs1.drop ds.length
  if ds.isEmpty then none
  else match rest with
    | '.' :: _ => none
    | 'e' :: _ => none
    | 'E' :: _ => none
    | _ => some (if neg then -(Int.ofNat (digitsToNat ds)) else Int.ofNat (digitsToNat ds), rest)

/-- Fueled JSON reader: a triple of value, array-tail and object-tail
readers at each fuel level (this avoids mutual recursion; fuel of input
length plus one is always sufficient since every level consumes input). -/
def jparsers : Nat →
    ((List Char → Option (Json × List Char)) ×
     (List Char → Option (List Json × List Char)) ×
     (List Char → Option (JObj × List Char)))
  | 0 => (fun _ => none, fun _ => none, fun _ => none)
  | Nat.succ fuel =>
      let pv := (jparsers fuel).1
      let pa := (jparsers fuel).2.1
      let po := (jparsers fuel).2.2
      (fun cs =>
        let cs := skipWs cs
        match cs with
        | 'n' :: 'u' :: 'l' :: 'l' :: r => some (Json.null, r)
        | 't' :: 'r' :: 'u' :: 'e' :: r => some (Json.bool true, r)
        | 'f' :: 'a' :: 'l' :: 's' :: 'e' :: r => some (Json.bool false, r)
        | '"' :: r => (readStrChars r).map (fun p => (Json.str (String.mk p.1), p.2))
        | '\x7b' :: r =>
            (match skipWs r with
             | '\x7d' :: r2 => some (Json.obj [], r2)
             | _ => (po r).map (fun p => (Json.obj p.1, p.2)))
        | '[' :: r =>
            (match skipWs r with
             | ']' :: r2 => some (Json.arr [], r2)
             | _ => (pa r).map (fun p => (Json.arr p.1, p.2)))
        | _ => (readNum cs).map (fun p => (Json.num p.1, p.2)),
       fun cs => do
        let (v, cs1) ← pv cs
        match skipWs cs1 with
        | ',' :: r => do
            let (vs, cs2) ← pa r
            pure (v :: vs, cs2)
        | ']' :: r => pure ([v], r)
        | _ => none,
       fun cs => do
        match skipWs cs with
        | '"' :: r => do
            let (kcs, cs1) ← readStrChars r
            (match skipWs cs1 with
             | ':' :: r2 => do
                 let (v, cs2) ← pv r2
                 (match skipWs cs2 with
                  | ',' :: r3 => do
                      let (kvs, cs3) ← po r3
                      pure ((String.mk kcs, v) :: kvs, cs3)
                  | '\x7d' :: r3 => pure ([(String.mk kcs, v)], r3)
                  | _ => none)
             | _ => none)
        | _ => none)

/-- Model of Python json.loads on a string: parse one value and require only
whitespace after it. -/
def jsonLoads (s : String) : Option Json := do
  let (v, rest) ← (jparsers (s.data.length + 1)).1 s.data
  if (skipWs rest).isEmpty then pure v else none

-- ── ingest.py : Collection (Postman) normalizer ─────────────────────────────

/-- Python type(v).__name__ for scalars, with dict and list collapsed to
object, as in _postman_params. -/
def pyTypeName : Json → String
  | Json.null => "NoneType"
  | Json.bool _ => "bool"
  | Json.num _ => "int"
  | Json.str _ => "str"
  | Json.arr _ => "object"
  | Json.obj _ => "object"

/-- Python sep.join(items). -/
def joinSep (sep : String) : List String → String
  | [] => ""
  | [x] => x
  | x :: xs => x ++ sep ++ joinSep sep xs

/-- Shallow embedding of ingest._postman_method (lines 381-383): GET is the
default only for an absent verb; a present verb is uppercased and fed to the
HttpMethod constructor, which raises on a non-member. -/
def postman_method (item : JObj) : Option HttpMethod := do
  let req ← getObjD item "request"
  let mstr ← match jlookup req "method" with
    | none => some "GET"
    | some (Json.str s) => some s
    | some _ => none
  parseHttpMethod (pyUpper mstr)

/-- Shallow embedding of ingest._postman_url (lines 386-397). -/
def postman_url (item : JObj) : Option (String × String) := do
  let req ← getObjD item "request"
  let urlJ := (jlookup req "url").getD (Json.obj [])
  match urlJ with
  | Json.str u => pure ("", u)
  | Json.obj url => do
      let _raw ← getStrD url "raw" ""
      let hostSegs ← match jlookup url "host" with
        | none => some []
        | some (Json.arr l) => asStrList l
        | some _ => none
      let pathSegs ← match jlookup url "path" with
        | none => some []
        | some (Json.arr l) => asStrList l
        | some _ => none
      let protocol ← getStrD url "protocol" "https"
      let host := joinSep "." hostSegs
      let path := "/" ++ joinSep "/" pathSegs
      let base := if !host.data.isEmpty then protocol ++ "://" ++ host else ""
      pure (base, path)
  | _ => none

/-- Shallow embedding of ingest._postman_params (lines 400-449): query
entries, headers minus content negotiation, and top-level fields of a raw
JSON object body (json.loads failures are swallowed). -/
def postman_params (item : JObj) : Option (List ParamSchema) := do
  let req ← getObjD item "request"
  let urlJ := (jlookup req "url").getD (Json.obj [])
  let queryParams ← match urlJ with
    | Json.obj url => do
        let qs ← getArrD url "query"
        qs.mapM (fun qj => do
          let q ← match qj with
            | Json.obj o => some o
            | _ => none
          let nm ← getStrD q "key" ""
          let desc ← getStrD q "description" ""
          let req2 := !pyTruthy ((jlookup q "disabled").getD (Json.bool false))
          pure (⟨nm, ParamLocation.query, desc, req2, "string", none,
                 Json.null, Json.null⟩ : ParamSchema))
    | _ => pure []
  let headers ← getArrD req "header"
  let headerParams ← headers.foldlM (fun acc hj => do
    let h ← match hj with
      | Json.obj o => some o
      | _ => none
    let key ← getStrD h "key" ""
    if pyLower key == "content-type" || pyLower key == "accept" then pure acc
    else do
      let desc ← getStrD h "description" ""
      pure (acc ++ [(⟨key, ParamLocation.header, desc, true, "string", none,
                     Json.null, Json.null⟩ : ParamSchema)])) []
  let bodyJ := (jlookup req "body").getD (Json.obj [])
  let body ← match bodyJ with
    | Json.obj o => some o
    | _ => none
  let bodyParams : List ParamSchema :=
    if (match jlookup body "mode" with
        | some (Json.str "raw") => true
        | _ => false) then
      match jlookup body "raw" with
      | some (Json.str rawStr) =>
          (match jsonLoads rawStr with
           | some (Json.obj fields) => fields.map (fun kv =>
               (⟨kv.1, ParamLocation.body, "", true, pyTypeName kv.2, none,
                 Json.null, Json.null⟩ : ParamSchema))
           | _ => [])
      | none => []
      | some _ => []
    else []
  pure (queryParams ++ headerParams ++ bodyParams)

/-- Shallow embedding of ingest._walk_postman_items (lines 452-482), with
fuel for the nested folder recursion (the document tree is finite, so fuel
of the document depth suffices). A folder contributes its name as the tag of
its direct children only. -/
def walk_postman : Nat → List Json → String → Option (List Endpoint)
  | 0, _, _ => none
  | Nat.succ fuel, items, tagPfx =>
      items.foldlM (fun acc itemJ => do
        let item ← match itemJ with
          | Json.obj o => some o
          | _ => none
        if hasKey item "item" then do
          let folder_name ← getStrD item "name" ""
          let sub ← match jlookup item "item" with
            | some (Json.arr l) => some l
            | _ => none
          let eps ← walk_postman fuel sub folder_name
          pure (acc ++ eps)
        else do
          let bp ← postman_url item
          let m ← postman_method item
          let params ← postman_params item
          let tags := if tagPfx.data.isEmpty then [] else [tagPfx]
          let summ ← getStrD item "name" ""
          let desc ← match jlookup item "request" with
            | some (Json.obj req) => getStrD req "description" ""
            | _ => some ""
          pure (acc ++ [(⟨m, bp.2, "", summ, desc, tags, params, [], [], [],
                          false⟩ : Endpoint)])) []

/-- Intermediate record for parse_postman before tag aggregation. -/
structure PostmanParts where
  title : String
  version : String
  description : String
  base_url : String
  endpoints : List Endpoint
  raw_meta : JObj

/-- Shallow embedding of ingest.parse_postman (lines 485-509), everything
except the final APISpec assembly. The base URL is taken opportunistically
from the first leaf reached by descending one folder level. -/
def parse_postman_core (fuel : Nat) (rawJ : Json) : Option PostmanParts := do
  let raw ← match rawJ with
    | Json.obj o => some o
    | _ => none
  let info ← getObjD raw "info"
  let items ← match jlookup raw "item" with
    | none => some []
    | some (Json.arr l) => some l
    | some _ => none
  let endpoints ← walk_postman fuel items ""
  let itemsVal := (jlookup raw "item").getD Json.null
  let base_url ← if pyTruthy itemsVal then
      match itemsVal with
      | Json.arr (first :: _) => do
          let c ← pyContains "item" first
          let first2 ← if c then
              match first with
              | Json.obj fkvs =>
                  (match jlookup fkvs "item" with
                   | some sub =>
                       if pyTruthy sub then
                         (match sub with
                          | Json.arr (s0 :: _) => some s0
                          | _ => none)
                       else some first
                   | none => none)
              | _ => none
            else pure first
          let f2 ← match first2 with
            | Json.obj o => some o
            | _ => none
          let bp ← postman_url f2
          pure bp.1
      | _ => none
    else pure ""
  let title ← getStrD info "name" "Untitled Collection"
  let version ← getStrD info "version" ""
  let descr ← getStrD info "description" ""
  let pid := (jlookup info "_postman_id").getD (Json.str "")
  pure ⟨title, version, descr, base_url, endpoints, [("postman_id", pid)]⟩

/-- Shallow embedding of ingest.parse_postman: spec-level tags are the
sorted set of the tags of all endpoints. -/
def parse_postman (fuel : Nat) (rawJ : Json) : Option APISpec :=
  (parse_postman_core fuel rawJ).map (fun p =>
    ⟨p.title, p.version, p.description, p.base_url, [], p.endpoints,
     pySortedSet (allEndpointTags p.endpoints), p.raw_meta⟩)

-- ── ingest.py : dispatcher routing for local documents ──────────────────────

/-- The two normalizers a local document can be routed to. -/
inductive Route where
  | openapi
  | postman
deriving DecidableEq, BEq

/-- Shallow embedding of the routing logic of ingest.ingest for a decoded
local document (lines 535-541), with the Python membership and truthiness
semantics of each test, including short-circuit evaluation. -/
def ingest_route (data : Json) : Option Route := do
  let c1 ← pyContains "openapi" data
  if c1 then pure Route.openapi
  else do
    let c2 ← pyContains "swagger" data
    if c2 then pure Route.openapi
    else do
      let cInfo ← pyContains "info" data
      let infoBranch ← if cInfo then do
          let infoVal ← pyGetD data "info" (Json.obj [])
          pyContains "_postman_id" infoVal
        else pure false
      if infoBranch then pure Route.postman
      else do
        let cItem ← pyContains "item" data
        if cItem then pure Route.postman
        else pure Route.openapi

/-- Routing rule in the words of the amended claim C8: version markers send
the document to the OpenAPI normalizer; otherwise an info entry containing
the member _postman_id (key of a mapping, substring of a string, element of
a list; a membership test on any other type is a dispatch error), or a
top-level item key, sends it to the Collection normalizer; anything else
falls back to the OpenAPI normalizer. -/
def claimRouteC8 (data : JObj) : Option Route :=
  if hasKey data "openapi" || hasKey data "swagger" then some Route.openapi
  else
    match jlookup data "info" with
    | some (Json.obj infoKvs) =>
        if hasKey infoKvs "_postman_id" then some Route.postman
        else if hasKey data "item" then some Route.postman
        else some Route.openapi
    | some (Json.str s) =>
        if strIn "_postman_id" s then some Route.postman
        else if hasKey data "item" then some Route.postman
        else some Route.openapi
    | some (Json.arr l) =>
        if l.any (fun x => match x with
            | Json.str s => s == "_postman_id"
            | _ => false) then some Route.postman
        else if hasKey data "item" then some Route.postman
        else some Route.openapi
    | some _ => none
    | none =>
        if hasKey data "item" then some Route.postman
        else some Route.openapi

-- ── Concrete documents for the normalizer and dispatcher claims ─────────────

/-- Request mapping with an unrecognized declared verb. -/
def reqTrace : JObj := [("method", Json.str "TRACE"), ("url", Json.str "/x")]

/-- Postman item carrying reqTrace. -/
def itemTrace : JObj := [("name", Json.str "probe"), ("request", Json.obj reqTrace)]

/-- Postman collection document whose single request declares the verb
TRACE. -/
def docPostmanTrace : Json :=
  Json.obj [("info", Json.obj [("_postman_id", Json.str "x1")]),
            ("item", Json.arr [Json.obj itemTrace])]

/-- Request mapping with the unrecognized verb CONNECT. -/
def reqConnect : JObj := [("method", Json.str "CONNECT")]

/-- Postman item carrying reqConnect. -/
def itemConnect : JObj := [("request", Json.obj reqConnect)]

/-- Postman item with no request key at all. -/
def itemNoReq : JObj := [("name", Json.str "ping")]

/-- Postman item whose request has no method key. -/
def itemReqEmpty : JObj := [("request", Json.obj [])]

/-- Request mapping with the lowercase verb post. -/
def reqPost : JObj := [("method", Json.str "post")]

/-- Postman item carrying reqPost. -/
def itemPost : JObj := [("request", Json.obj reqPost)]

/-- OpenAPI document with one operation that declares the single tag "". -/
def docTagEmpty : Json :=
  Json.obj [("paths", Json.obj
    [("/x", Json.obj
      [("get", Json.obj [("tags", Json.arr [Json.str ""]),
                         ("responses", Json.obj [])])])])]

/-- Empty Postman collection document. -/
def docPostmanEmpty : Json := Json.obj [("item", Json.arr [])]

/-- Expected APISpec for parse_openapi on the empty mapping document. -/
def specOpenapiEmpty : APISpec :=
  ⟨"Untitled API", "", "", "", [], [], [], [("openapi", Json.str "")]⟩

/-- Expected APISpec for parse_postman on the empty collection document. -/
def specPostmanEmpty : APISpec :=
  ⟨"Untitled Collection", "", "", "", [], [], [], [("postman_id", Json.str "")]⟩

/-- Mapping document with a top-level items (plural) key, as named by claim
C8; the dispatcher tests the singular key item. -/
def docItems : Json := Json.obj [("items", Json.arr [])]

/-- Scrubbing of a path item: keep only the seven recognized method keys and
the shared parameters key. -/
def scrubItem (item : JObj) : JObj :=
  item.filter (fun kv => methodNames.contains kv.1 || kv.1 == "parameters")

/-- Predicate characterizing the spec-level tag invariant of claim C6
(amended): sorted in the CPython string order, duplicate free, and exactly
the union of the endpoint tags. -/
def tagsInvariant (spec : APISpec) : Prop :=
  spec.tags.Pairwise (fun a b => strLe a b = true) ∧
  spec.tags.Nodup ∧
  ∀ t, t ∈ spec.tags ↔ ∃ e, e ∈ spec.endpoints ∧ t ∈ e.tags

/-- Projection used by the C6 counterexample. -/
def tagsOfParse (o : Option APISpec) : Option (List String) :=
  Option.map APISpec.tags o

-- ════════════════════════════════════════ THEOREMS ═════════════════════════

-- ── ASCII case-folding lemmas (for the case-insensitivity hyperproperty) ────

theorem char_toNat_ofNat_valid (n : Nat) (h : n.isValidChar) :
    (Char.ofNat n).toNat = n := by
  unfold Char.ofNat
  rw [dif_pos h]
  rfl

theorem char_toUpper_toLower (c : Char) :
    Char.toUpper (Char.toLower c) = Char.toUpper c := by
  simp only [Char.toLower, Char.toUpper]
  by_cases h : c.toNat ≥ 65 ∧ c.toNat ≤ 90
  · rw [if_pos h]
    have hv : (c.toNat + 32).isValidChar := Or.inl (by omega)
    have ht : (Char.ofNat (c.toNat + 32)).toNat = c.toNat + 32 :=
      char_toNat_ofNat_valid _ hv
    rw [ht]
    rw [if_pos (show c.toNat + 32 ≥ 97 ∧ c.toNat + 32 ≤ 122 by omega)]
    rw [if_neg (show ¬(c.toNat ≥ 97 ∧ c.toNat ≤ 122) by omega)]
    have h32 : c.toNat + 32 - 32 = c.toNat := by omega
    rw [h32, Char.ofNat_toNat]
  · rw [if_neg h]

theorem pyUpper_pyLower (s : String) : pyUpper (pyLower s) = pyUpper s := by
  simp only [pyUpper, pyLower, List.map_map]
  have hc : Char.toUpper ∘ Char.toLower = Char.toUpper :=
    funext char_toUpper_toLower
  rw [hc]

-- ── Claim C1 ────────────────────────────────────────────────────────────────

/-- C1, counterexample to the claim as stated: classifying the capability
with method DELETE and name deleteUser returns confidence 0.9, not 0.95,
because the destructive-keyword rule fires on the substring delete inside
deleteuser before the DELETE-method branch is reached. -/
theorem claimC1_cex :
    (apply_rules toolDeleteUser Policy.conservative).confidence ≠ (0.95 : ℚ) := by
  have h : apply_rules toolDeleteUser Policy.conservative =
      ⟨"unsafe", Expose.no, "Contains destructive keyword: " ++ squo "delete", 0.9⟩ := rfl
  rw [h]
  norm_num

/-- C1, amended: for every policy value, classifying the capability with
method DELETE, name deleteUser, empty description and path returns
classification unsafe, exposure false, and confidence 0.9 (the
destructive-keyword rule matches first, not the DELETE-method rule). -/
theorem claimC1_amended (policy : Policy) :
    apply_rules toolDeleteUser policy =
      ⟨"unsafe", Expose.no, "Contains destructive keyword: " ++ squo "delete", 0.9⟩ := by
  cases policy <;> rfl

-- ── Claim C2 ────────────────────────────────────────────────────────────────

/-- C2: classifying the capability with method POST, name createOrder and
description containing order under the moderate policy matches the billing
keyword order (the reason names it) and returns classification unsafe,
exposure false, confidence 0.85, before any write-method branch. -/
theorem claimC2_confirmed :
    apply_rules toolCreateOrder Policy.moderate =
      ⟨"unsafe", Expose.no, "Billing/payment operation: " ++ squo "order", 0.85⟩ := rfl

-- ── Claim C9 ────────────────────────────────────────────────────────────────

/-- C9: rule-based batch classification returns one record per input, in
input order, and the summary counts exposable, blocked and needs_review are
the numbers of records whose exposure is true, false and review
respectively, with total the number of inputs. -/
theorem claimC9_confirmed (tools : List Tool) (policy : Policy) :
    (classify_tools tools policy).classifications = tools.map (recordOf policy) ∧
    (classify_tools tools policy).summary.total = tools.length ∧
    (classify_tools tools policy).summary.exposable =
      (classify_tools tools policy).classifications.countP
        (fun c => c.expose == Expose.yes) ∧
    (classify_tools tools policy).summary.blocked =
      (classify_tools tools policy).classifications.countP
        (fun c => c.expose == Expose.no) ∧
    (classify_tools tools policy).summary.needs_review =
      (classify_tools tools policy).classifications.countP
        (fun c => c.expose == Expose.review) := by
  cases tools with
  | nil => simp [classify_tools]
  | cons a l => simp [classify_tools]

-- ── Claim C10 ───────────────────────────────────────────────────────────────

/-- C10: rule-based classification is insensitive to letter case: two
capability descriptors whose name, method, description and path agree up to
ASCII case folding receive identical classification records. -/
theorem claimC10_confirmed (policy : Policy) (t1 t2 : Tool)
    (hname : pyLower t1.name = pyLower t2.name)
    (hmethod : pyLower t1.method = pyLower t2.method)
    (hdesc : pyLower t1.description = pyLower t2.description)
    (hpath : pyLower t1.path = pyLower t2.path) :
    apply_rules t1 policy = apply_rules t2 policy := by
  have hup : pyUpper t1.method = pyUpper t2.method := by
    rw [← pyUpper_pyLower t1.method, hmethod, pyUpper_pyLower]
  simp only [apply_rules, hname, hmethod, hdesc, hpath, hup]

/-- C10 witness: the hyperproperty applied to a concrete pair of descriptors
differing only in case. -/
theorem claimC10_witness :
    pyLower "ListUsers" = pyLower "listusers" ∧
    apply_rules ⟨"ListUsers", "GET", "List ALL users", "/API/Users"⟩ Policy.moderate =
      apply_rules ⟨"listusers", "get", "list all users", "/api/users"⟩ Policy.moderate :=
  ⟨by decide,
   claimC10_confirmed Policy.moderate _ _ (by decide) (by decide) (by decide) (by decide)⟩

-- ── Claim C7 ────────────────────────────────────────────────────────────────

theorem resolveParts_emptyObj (ps : List String) :
    resolveParts (Json.obj []) ps = some (Json.obj []) := by
  induction ps with
  | nil => rfl
  | cons p t ih => simpa [resolveParts, pyGetD, jlookup] using ih

theorem resolveParts_missing (parts : List String) :
    ∀ (node r : Json), resolveParts node parts = some r →
      pathExists node parts = false → r = Json.obj [] := by
  induction parts with
  | nil =>
    intro node r _ hpe
    simp [pathExists] at hpe
  | cons p ps ih =>
    intro node r hres hpe
    cases node with
    | obj kvs =>
      cases hjl : jlookup kvs p with
      | some v =>
        have hres2 : resolveParts v ps = some r := by
          simpa [resolveParts, pyGetD, hjl] using hres
        have hpe2 : pathExists v ps = false := by
          simpa [pathExists, hjl] using hpe
        exact ih v r hres2 hpe2
      | none =>
        have hres2 : resolveParts (Json.obj []) ps = some r := by
          simpa [resolveParts, pyGetD, hjl] using hres
        have := resolveParts_emptyObj ps
        rw [hres2] at this
        exact Option.some.inj this
    | null => simp [resolveParts, pyGetD] at hres
    | bool b => simp [resolveParts, pyGetD] at hres
    | num n => simp [resolveParts, pyGetD] at hres
    | str s => simp [resolveParts, pyGetD] at hres
    | arr l => simp [resolveParts, pyGetD] at hres

/-- C7: when every node visited along a structural reference is a mapping
(so the Python walk raises nothing, that is, the walk returns a value) and
the referenced path does not strictly exist in the document, the resolver
returns the empty mapping rather than raising. -/
theorem claimC7_confirmed (doc : Json) (ref : String) (r : Json)
    (hwalk : resolve_ref doc ref = some r)
    (hmissing : pathExists doc (refParts ref) = false) :
    r = Json.obj [] :=
  resolveParts_missing (refParts ref) doc r hwalk hmissing

/-- C7 witness: resolving the Pet reference against a document whose
components mapping is empty walks only mappings, the path does not exist,
and the result is the empty mapping. -/
theorem claimC7_witness :
    resolve_ref docC7 "#/components/schemas/Pet" = some (Json.obj []) ∧
    pathExists docC7 (refParts "#/components/schemas/Pet") = false ∧
    Json.obj [] = Json.obj [] :=
  ⟨rfl, rfl,
   claimC7_confirmed docC7 "#/components/schemas/Pet" (Json.obj []) rfl rfl⟩

-- ── Claim C3 ────────────────────────────────────────────────────────────────

/-- C3, evaluation at the failing input: flattening allOf of A and B where A
declares property a and B declares property b loses the property a entirely,
because dict.update(sub) overwrites the whole properties entry before the
setdefault line (which is then a no-op) can merge it. The claim and the spec
require the merged properties to contain both a and b. -/
theorem claimC3_eval :
    flatten 9 (Json.obj []) schemaC3 =
      some (Json.obj [("properties", Json.obj
        [("b", Json.obj [("type", Json.str "integer")])])]) := rfl

-- ── Order lemmas for the CPython string comparison ──────────────────────────

theorem lexLe_total (a : List Char) : ∀ b, lexLe a b = true ∨ lexLe b a = true := by
  induction a with
  | nil => intro b; left; rfl
  | cons x xs ih =>
    intro b
    cases b with
    | nil => right; rfl
    | cons y ys =>
      by_cases h1 : x.toNat < y.toNat
      · left; simp [lexLe, h1]
      · by_cases h2 : y.toNat < x.toNat
        · right; simp [lexLe, h2]
        · simpa [lexLe, h1, h2] using ih ys

theorem lexLe_trans (a : List Char) :
    ∀ b c, lexLe a b = true → lexLe b c = true → lexLe a c = true := by
  induction a with
  | nil => intro b c _ _; rfl
  | cons x xs ih =>
    intro b c h1 h2
    cases b with
    | nil => simp [lexLe] at h1
    | cons y ys =>
      cases c with
      | nil => simp [lexLe] at h2
      | cons z zs =>
        simp only [lexLe] at h1 h2 ⊢
        by_cases hxy : x.toNat < y.toNat <;> by_cases hyz : y.toNat < z.toNat
        · rw [if_pos (by omega)]
        · by_cases hzy : z.toNat < y.toNat
          · simp [hyz, hzy] at h2
          · rw [if_pos (by omega)]
        · by_cases hyx : y.toNat < x.toNat
          · simp [hxy, hyx] at h1
          · rw [if_pos (by omega)]
        · by_cases hyx : y.toNat < x.toNat
          · simp [hxy, hyx] at h1
          · by_cases hzy : z.toNat < y.toNat
            · simp [hyz, hzy] at h2
            · have hx1 : lexLe xs ys = true := by simpa [hxy, hyx] using h1
              have hx2 : lexLe ys zs = true := by simpa [hyz, hzy] using h2
              rw [if_neg (by omega), if_neg (by omega)]
              exact ih ys zs hx1 hx2

theorem strLe_total (a b : String) : strLe a b = true ∨ strLe b a = true :=
  lexLe_total a.data b.data

theorem strLe_trans (a b c : String) (h1 : strLe a b = true)
    (h2 : strLe b c = true) : strLe a c = true :=
  lexLe_trans a.data b.data c.data h1 h2

theorem mem_insertSorted (x b : String) (l : List String) :
    b ∈ insertSorted x l ↔ b = x ∨ b ∈ l := by
  induction l with
  | nil => simp [insertSorted]
  | cons y ys ih =>
    simp only [insertSorted]
    by_cases h : strLe x y
    · simp only [if_pos h, List.mem_cons]
    · simp only [if_neg h, List.mem_cons, ih]
      tauto

theorem mem_sortStrings (b : String) (l : List String) :
    b ∈ sortStrings l ↔ b ∈ l := by
  induction l with
  | nil => simp [sortStrings]
  | cons x xs ih =>
    simp only [sortStrings, mem_insertSorted, List.mem_cons, ih]

theorem mem_dedupStr (b : String) (l : List String) :
    b ∈ dedupStr l ↔ b ∈ l := by
  induction l with
  | nil => simp [dedupStr]
  | cons x xs ih =>
    simp only [dedupStr]
    by_cases h : xs.contains x
    · have hx : x ∈ xs := by simpa using h
      simp only [if_pos h, ih, List.mem_cons]
      constructor
      · intro hb; right; exact hb
      · intro hb
        rcases hb with rfl | hb2
        · exact hx
        · exact hb2
    · simp only [if_neg h, List.mem_cons, ih]

theorem nodup_dedupStr (l : List String) : (dedupStr l).Nodup := by
  induction l with
  | nil => simp [dedupStr]
  | cons x xs ih =>
    simp only [dedupStr]
    by_cases h : xs.contains x
    · rw [if_pos h]; exact ih
    · have hx : x ∉ xs := by simpa using h
      rw [if_neg h]
      exact List.nodup_cons.mpr ⟨fun hmem => hx ((mem_dedupStr x xs).mp hmem), ih⟩

theorem nodup_insertSorted (x : String) (l : List String) (hx : x ∉ l)
    (h : l.Nodup) : (insertSorted x l).Nodup := by
  induction l with
  | nil => simp [insertSorted]
  | cons y ys ih =>
    simp only [insertSorted]
    rcases List.nodup_cons.mp h with ⟨hy, hys⟩
    by_cases hle : strLe x y
    · rw [if_pos hle]
      exact List.nodup_cons.mpr ⟨hx, h⟩
    · rw [if_neg hle]
      refine List.nodup_cons.mpr ⟨?_, ih (fun hmem => hx (List.mem_cons_of_mem y hmem)) hys⟩
      intro hmem
      rcases (mem_insertSorted x y ys).mp hmem with rfl | hmem2
      · exact hx (List.mem_cons_self y ys)
      · exact hy hmem2

theorem nodup_sortStrings (l : List String) (h : l.Nodup) :
    (sortStrings l).Nodup := by
  induction l with
  | nil => simp [sortStrings]
  | cons x xs ih =>
    rcases List.nodup_cons.mp h with ⟨hx, hxs⟩
    exact nodup_insertSorted x (sortStrings xs)
      (fun hmem => hx ((mem_sortStrings x xs).mp hmem)) (ih hxs)

theorem pairwise_insertSorted (x : String) (l : List String)
    (h : l.Pairwise (fun a b => strLe a b = true)) :
    (insertSorted x l).Pairwise (fun a b => strLe a b = true) := by
  induction l with
  | nil => simp [insertSorted]
  | cons y ys ih =>
    simp only [insertSorted]
    rcases List.pairwise_cons.mp h with ⟨hy, hys⟩
    by_cases hle : strLe x y
    · rw [if_pos hle]
      refine List.pairwise_cons.mpr ⟨?_, h⟩
      intro b hb
      rcases List.mem_cons.mp hb with rfl | hb2
      · exact hle
      · exact strLe_trans x y b hle (hy b hb2)
    · rw [if_neg hle]
      refine List.pairwise_cons.mpr ⟨?_, ih hys⟩
      intro b hb
      rcases (mem_insertSorted x b ys).mp hb with rfl | hb2
      · rcases strLe_total b y with h1 | h2
        · exact absurd h1 hle
        · exact h2
      · exact hy b hb2

theorem pairwise_sortStrings (l : List String) :
    (sortStrings l).Pairwise (fun a b => strLe a b = true) := by
  induction l with
  | nil => simp [sortStrings]
  | cons x xs ih => exact pairwise_insertSorted x (sortStrings xs) ih

theorem mem_pySortedSet (t : String) (l : List String) :
    t ∈ pySortedSet l ↔ t ∈ l :=
  (mem_sortStrings t (dedupStr l)).trans (mem_dedupStr t l)

theorem nodup_pySortedSet (l : List String) : (pySortedSet l).Nodup :=
  nodup_sortStrings (dedupStr l) (nodup_dedupStr l)

theorem pairwise_pySortedSet (l : List String) :
    (pySortedSet l).Pairwise (fun a b => strLe a b = true) :=
  pairwise_sortStrings (dedupStr l)

theorem mem_allEndpointTags (t : String) (eps : List Endpoint) :
    t ∈ allEndpointTags eps ↔ ∃ e, e ∈ eps ∧ t ∈ e.tags := by
  induction eps with
  | nil => simp [allEndpointTags]
  | cons e es ih =>
    simp only [allEndpointTags, List.foldr] at ih ⊢
    simp only [List.mem_append, ih, List.mem_cons]
    constructor
    · intro hb
      rcases hb with hb1 | ⟨e2, he2, ht2⟩
      · exact ⟨e, Or.inl rfl, hb1⟩
      · exact ⟨e2, Or.inr he2, ht2⟩
    · intro hb
      rcases hb with ⟨e2, he2 | he2, ht2⟩
      · subst he2; exact Or.inl ht2
      · exact Or.inr ⟨e2, he2, ht2⟩

-- ── Claim C6 ────────────────────────────────────────────────────────────────

/-- C6, amended: for every successfully normalized Spec, from either
normalizer, Spec.tags is sorted, duplicate free, and its members are exactly
the union of all Endpoint tags. The original exclusion of empty tags does
not hold for the OpenAPI normalizer (see the counterexample); the Collection
normalizer never attaches an empty tag, so no exclusion is needed there. -/
theorem claimC6_amended :
    (∀ (fuel : Nat) (doc : Json) (spec : APISpec),
        parse_openapi fuel doc = some spec → tagsInvariant spec) ∧
    (∀ (fuel : Nat) (doc : Json) (spec : APISpec),
        parse_postman fuel doc = some spec → tagsInvariant spec) := by
  constructor
  · intro fuel doc spec h
    rw [parse_openapi, Option.map_eq_some'] at h
    obtain ⟨p, _, hp⟩ := h
    subst hp
    exact ⟨pairwise_pySortedSet _, nodup_pySortedSet _,
           fun t => (mem_pySortedSet t _).trans (mem_allEndpointTags t _)⟩
  · intro fuel doc spec h
    rw [parse_postman, Option.map_eq_some'] at h
    obtain ⟨p, _, hp⟩ := h
    subst hp
    exact ⟨pairwise_pySortedSet _, nodup_pySortedSet _,
           fun t => (mem_pySortedSet t _).trans (mem_allEndpointTags t _)⟩

/-- C6 witness: both normalizers succeed on concrete documents and the
amended invariant holds for the resulting Specs. -/
theorem claimC6_witness :
    parse_openapi 1 (Json.obj []) = some specOpenapiEmpty ∧
    tagsInvariant specOpenapiEmpty ∧
    parse_postman 1 docPostmanEmpty = some specPostmanEmpty ∧
    tagsInvariant specPostmanEmpty :=
  ⟨rfl,
   claimC6_amended.1 1 (Json.obj []) specOpenapiEmpty rfl,
   rfl,
   claimC6_amended.2 1 docPostmanEmpty specPostmanEmpty rfl⟩

/-- C6, counterexample to the claim as stated: an OpenAPI operation with the
single tag "" produces Spec.tags equal to [""], so the empty tag is not
excluded, while the claim requires the empty-tag-free union, which is []. -/
theorem claimC6_cex :
    tagsOfParse (parse_openapi 3 docTagEmpty) = some [""] ∧
    ([""] : List String) ≠ [] := by
  constructor
  · rfl
  · simp

-- ── Claim C4 ────────────────────────────────────────────────────────────────

theorem jlookup_scrubItem (item : JObj) (k : String)
    (hk : (methodNames.contains k || k == "parameters") = true) :
    jlookup (scrubItem item) k = jlookup item k := by
  unfold jlookup scrubItem
  rw [List.find?_filter]
  have hpred : (fun a : String × Json =>
      decide ((methodNames.contains a.1 || a.1 == "parameters") = true ∧
        (a.1 == k) = true)) = (fun kv : String × Json => kv.1 == k) := by
    funext kv
    by_cases h : kv.1 = k
    · simp [h]
      simpa using hk
    · have hb : (kv.1 == k) = false := by
        simpa using h
      simp [hb]
  rw [hpred]

theorem option_bind_congr {α β : Type} (x : Option α) (f g : α → Option β)
    (h : ∀ a, f a = g a) : x >>= f = x >>= g := by
  cases x with
  | none => rfl
  | some a => exact h a

theorem foldlM_option_congr {σ α : Type} (l : List α) (f g : σ → α → Option σ)
    (h : ∀ a, a ∈ l → ∀ s, f s a = g s a) :
    ∀ init, List.foldlM f init l = List.foldlM g init l := by
  induction l with
  | nil => intro init; rfl
  | cons x xs ih =>
    intro init
    show f init x >>= (fun s => List.foldlM f s xs) =
      g init x >>= (fun s => List.foldlM g s xs)
    rw [h x (List.mem_cons_self x xs) init]
    exact option_bind_congr (g init x) _ _
      (fun s => ih (fun a ha s2 => h a (List.mem_cons_of_mem x ha) s2) s)

/-- C4, amended: in the OpenAPI normalizer an operation whose declared
method key is not one of the seven recognized methods is rejected without
any effect: processing a path item with every unrecognized key removed
yields the identical result, so such operations contribute no Endpoint and
cannot fail the ingestion, while all recognized operations are unaffected.
(The Collection normalizer instead aborts on an unrecognized declared verb;
see the counterexample.) -/
theorem claimC4_amended (fuel : Nat) (spec : Json) (gsec : List Json)
    (pathStr : String) (item : JObj) :
    endpointsForPathItem fuel spec gsec pathStr (scrubItem item) =
      endpointsForPathItem fuel spec gsec pathStr item := by
  unfold endpointsForPathItem
  have h1 : getArrD (scrubItem item) "parameters" = getArrD item "parameters" := by
    unfold getArrD
    rw [jlookup_scrubItem item "parameters" (by decide)]
  rw [h1]
  refine option_bind_congr (getArrD item "parameters") _ _ ?_
  intro shared
  refine foldlM_option_congr methodNames _ _ ?_ []
  intro mname hm acc
  have hc : (methodNames.contains mname || mname == "parameters") = true := by
    fin_cases hm <;> decide
  rw [jlookup_scrubItem item mname hc]

/-- C4, counterexample to the claim as stated: a collection document whose
single request declares the unrecognized verb TRACE makes the whole
ingestion fail instead of rejecting the operation and succeeding. -/
theorem claimC4_cex : parse_postman 9 docPostmanTrace = none := rfl

-- ── Claim C5 ────────────────────────────────────────────────────────────────

/-- C5, amended: the Collection normalizer defaults the method to GET only
when the declared verb is absent (missing request mapping or missing method
key); a present verb that parses as one of the seven methods is used as is,
and a present verb that does not parse raises, aborting the ingestion
instead of defaulting to GET. -/
theorem claimC5_amended :
    (∀ item : JObj, jlookup item "request" = none →
        postman_method item = some HttpMethod.GET) ∧
    (∀ (item req : JObj), jlookup item "request" = some (Json.obj req) →
        jlookup req "method" = none → postman_method item = some HttpMethod.GET) ∧
    (∀ (item req : JObj) (m : String) (hm : HttpMethod),
        jlookup item "request" = some (Json.obj req) →
        jlookup req "method" = some (Json.str m) →
        parseHttpMethod (pyUpper m) = some hm →
        postman_method item = some hm) ∧
    (∀ (item req : JObj) (m : String),
        jlookup item "request" = some (Json.obj req) →
        jlookup req "method" = some (Json.str m) →
        parseHttpMethod (pyUpper m) = none →
        postman_method item = none) := by
  refine ⟨?_, ?_, ?_, ?_⟩
  · intro item h
    simp [postman_method, getObjD, h]
    rfl
  · intro item req h1 h2
    simp [postman_method, getObjD, h1, h2]
    rfl
  · intro item req m hm h1 h2 h3
    simp [postman_method, getObjD, h1, h2, h3]
  · intro item req m h1 h2 h3
    simp [postman_method, getObjD, h1, h2, h3]

/-- C5 witness: the four branches of the amended claim at concrete items:
absent request, empty request, lowercase verb post, unrecognized verb. -/
theorem claimC5_witness :
    postman_method itemNoReq = some HttpMethod.GET ∧
    postman_method itemReqEmpty = some HttpMethod.GET ∧
    postman_method itemPost = some HttpMethod.POST ∧
    postman_method itemConnect = none :=
  ⟨claimC5_amended.1 itemNoReq rfl,
   claimC5_amended.2.1 itemReqEmpty [] rfl rfl,
   claimC5_amended.2.2.1 itemPost reqPost "post" HttpMethod.POST rfl rfl rfl,
   claimC5_amended.2.2.2 itemConnect reqConnect "CONNECT" rfl rfl rfl⟩

/-- C5, counterexample to the claim as stated: a request node declaring the
unparseable verb CONNECT yields an error, not an Endpoint with method
GET. -/
theorem claimC5_cex :
    postman_method itemConnect = none ∧
    (none : Option HttpMethod) ≠ some HttpMethod.GET :=
  ⟨rfl, by decide⟩

-- ── Claim C8 ────────────────────────────────────────────────────────────────

/-- C8, amended: for a local document that decodes to a mapping, the
dispatcher routes to the OpenAPI normalizer when a version-marker key is
present; otherwise to the Collection normalizer when the info entry
contains the member _postman_id under the Python membership semantics of
its type (mapping key, string substring, list element; other types are a
dispatch error) or when the top-level key item (singular) is present; and
otherwise falls back to the OpenAPI normalizer. -/
theorem claimC8_amended (data : JObj) :
    ingest_route (Json.obj data) = claimRouteC8 data := by
  unfold ingest_route claimRouteC8
  simp only [pyContains, pyGetD, Option.bind_some]
  by_cases h1 : hasKey data "openapi"
  · simp [h1]
  · by_cases h2 : hasKey data "swagger"
    · simp [h1, h2]
    · simp only [h1, h2, Bool.false_eq_true, if_false, if_neg, Bool.or_self]
      cases hinfo : jlookup data "info" with
      | none =>
        have hik : hasKey data "info" = false := by
          unfold hasKey
          rw [hinfo]
          rfl
        simp [hik, h1, h2, hinfo]
      | some v =>
        have hik : hasKey data "info" = true := by
          unfold hasKey
          rw [hinfo]
          rfl
        cases v with
        | null => simp [hik, h1, h2, hinfo]
        | bool b => simp [hik, h1, h2, hinfo]
        | num n => simp [hik, h1, h2, hinfo]
        | str s => simp [hik, h1, h2, hinfo]
        | arr l => simp [hik, h1, h2, hinfo]
        | obj o => simp [hik, h1, h2, hinfo]

/-- C8, counterexample to the claim as stated: a mapping document whose only
top-level key is items (plural, as the claim names it) is routed to the
OpenAPI fallback, because the dispatcher tests the singular key item; the
claim requires routing to the Collection normalizer. -/
theorem claimC8_cex :
    ingest_route docItems = some Route.openapi ∧ Route.openapi ≠ Route.postman :=
  ⟨rfl, by decide⟩
